import Mathlib

/-!
Shallow embedding of `hc11_functions/dataloaders.py`: the `Tarloader`
class (session-level sequence over tar archives) and the `Dataloader`
class (group-level sequence inside one extracted session), together with
the filesystem effects they perform (directory listings, tar extraction,
csv memoization, metadata loading, raw kkio parsing).
-/

namespace Hc11

/-- Python exception values, labelled by the exception class raised. -/
inductive PyError where
  | assertionError (msg : String)
  | indexError (msg : String)
  | keyError (msg : String)
  | valueError (msg : String)
  | fileNotFoundError (msg : String)
deriving DecidableEq, Repr

/-- One entry of a directory listing: a name plus whether the entry is a
directory. `os.listdir` exposes only the names; the kind is carried so
that statements can quantify over it. -/
structure DirEntry where
  name : String
  isDir : Bool
deriving DecidableEq, Repr

/-- Abstract tabular record set: the pandas DataFrame produced by
`kkio.from_KK` or reloaded from a memoized csv file. -/
structure DataFrame where
  rows : List (List Int)
deriving DecidableEq, Repr

/-- Abstract nested metadata structure loaded by `mat73.loadmat`. -/
abbrev Mat := List (String × Int)

/-- Keyword arguments of the `kkio.from_KK` call in
`Dataloader.__getitem__`. -/
structure KKOpts where
  groups_to_get : Int
  verify_unique_clusters : Bool
  also_get_features : Bool
  also_get_waveforms : Bool
  n_samples : Int
  n_channels : Int
  fs : Int
  load_memoized : Bool
  save_memoized : Bool
deriving DecidableEq, Repr

/-- Filesystem-and-collaborator state threaded through the loaders.
`listings` is `os.listdir`; `archives` maps a tar path to the top-level
entries its extraction adds to the destination directory (`none` means no
such archive exists, so `tarfile.open` raises `FileNotFoundError`);
`mats` is `mat73.loadmat`; `tables` maps a csv path to the logical record
set persisted there (`DataFrame.to_csv` writes it with the row index as
first column and `pandas.read_csv` with `index_col=0` reads it back, per
the round-trip contract of the persistence format, which is an external
collaborator); `raw` is the `kkio.from_KK` parser viewed as a function of
the session directory and its keyword arguments; `log` records the paths
of the tar archives extracted so far, in order. -/
structure FS where
  listings : String → List DirEntry
  archives : String → Option (List DirEntry)
  mats : String → Option Mat
  tables : String → Option DataFrame
  raw : String → KKOpts → Except PyError DataFrame
  log : List String

/-- Python `os.path.join` for the simple relative-component case used by
the source. -/
def pathJoin (a b : String) : String := a ++ "/" ++ b

/-- Python truthiness of an optional string argument: `None` and the
empty string are falsy. -/
def pyTruthy : Option String → Bool
  | none => false
  | some s => !s.isEmpty

/-- Python list indexing `l[i]`: negative indices count from the end,
anything out of range raises `IndexError`. -/
def pyListGet {α : Type} (l : List α) (i : Int) : Except PyError α :=
  let j : Int := if i < 0 then i + l.length else i
  if 0 ≤ j then
    match l.get? j.toNat with
    | some a => Except.ok a
    | none => Except.error (PyError.indexError "list index out of range")
  else Except.error (PyError.indexError "list index out of range")

/-- Position of the first occurrence of `s`, as computed by
`np.argwhere(np.array(l) == s)[0][0]`. -/
def firstIndexOf : List String → String → Option Nat
  | [], _ => none
  | a :: rest, s => if a = s then some 0 else (firstIndexOf rest s).map (· + 1)

/-- Scan for `re.search(r'[a-zA-Z]+_\d+(.tar.gz)?', f)`: since the final
group is optional and the search is existential, the pattern matches
exactly when some ASCII letter is immediately followed by an underscore
and a decimal digit. -/
def hasSessionPattern : List Char → Bool
  | a :: b :: c :: rest =>


      (a.isAlpha && b == '_' && c.isDigit) || hasSessionPattern (b :: c :: rest)
  | _ => false

/-- Boolean result of `re.search(r'[a-zA-Z]+_\d+(.tar.gz)?', f)` on a
filename. -/
def sessionSearch (s : String) : Bool := hasSessionPattern s.data

/-- Three characters forming one of the literal alternatives
`clu|res|fet|spk`. -/
def isKind3 (a b c : Char) : Bool :=
  (a == 'c' && b == 'l' && c == 'u') || (a == 'r' && b == 'e' && c == 's') ||
  (a == 'f' && b == 'e' && c == 't') || (a == 's' && b == 'p' && c == 'k')

/-- Tail of the group-file pattern after the digits: one arbitrary
character (the unescaped dot), a kind alternative, one arbitrary
character, and at least one digit. -/
def kindSeg : List Char → Bool
  | _ :: a :: b :: c :: _ :: d :: _ => isKind3 a b c && d.isDigit
  | _ => false

/-- One or more digits followed by `kindSeg`, trying every split point
(regex backtracking is existential). -/
def afterUnderscore : List Char → Bool
  | [] => false
  | d :: rest => d.isDigit && (kindSeg rest || afterUnderscore rest)

/-- Scan for `re.search(r'[a-zA-Z]+_\d+.(clu|res|fet|spk).\d+', f)`: the
pattern matches exactly when some ASCII letter is immediately followed by
an underscore and then `afterUnderscore` succeeds. -/
def groupSearchAux : List Char → Bool
  | a :: u :: rest =>
      (a.isAlpha && u == '_' && afterUnderscore rest) || groupSearchAux (u :: rest)
  | _ => false

/-- Boolean result of `re.search(r'[a-zA-Z]+_\d+.(clu|res|fet|spk).\d+', f)`
on a filename. -/
def groupFileSearch (s : String) : Bool := groupSearchAux s.data

/-- Does the character list start with the given pattern? -/
def startsWithL : List Char → List Char → Bool
  | _, [] => true
  | [], _ :: _ => false
  | a :: l, b :: m => a == b && startsWithL l m

/-- Fuel-indexed core of Python `str.replace`: scan left to right and
replace every non-overlapping occurrence of the (nonempty) pattern. The
fuel is the input length, which bounds the number of steps. -/
def replaceCore (pat repl : List Char) : Nat → List Char → List Char
  | _, [] => []
  | 0, l => l
  | fuel + 1, a :: l =>
      if startsWithL (a :: l) pat then
        repl ++ replaceCore pat repl fuel (List.drop (pat.length - 1) l)
      else a :: replaceCore pat repl fuel l

/-- Python `s.replace(pat, repl)`: every non-overlapping occurrence of a
nonempty pattern is replaced, scanning left to right; an empty pattern is
treated as in the source call sites, which never pass one. -/
def pyReplace (s pat repl : String) : String :=
  if pat.data.isEmpty then s
  else ⟨replaceCore pat.data repl.data s.data.length s.data⟩

/-- Core of Python `s.split('.')`: accumulate the current field in
reverse and cut at every dot. -/
def splitDotCore : List Char → List Char → List (List Char)
  | [], acc => [acc.reverse]
  | c :: l, acc =>
      if c = '.' then acc.reverse :: splitDotCore l []
      else splitDotCore l (c :: acc)

/-- Python `s.split('.')`. -/
def pySplitDot (s : String) : List String :=
  (splitDotCore s.data []).map (fun l => String.mk l)

/-- Core of decimal parsing: consumes digits, accumulating the value. -/
def parseNatCore : List Char → Nat → Option Nat
  | [], acc => some acc
  | c :: l, acc =>
      if c.isDigit then parseNatCore l (acc * 10 + (c.toNat - 48)) else none

/-- Python `int(...)`, modeled on unsigned decimal tokens (the only form
the group filenames produce). -/
def parseNat (s : String) : Option Nat :=
  match s.data with
  | [] => none
  | l => parseNatCore l 0

/-- Lexicographic comparison of character lists by code point, the order
`np.unique` sorts strings in. -/
def charListLe : List Char → List Char → Bool
  | [], _ => true
  | _ :: _, [] => false
  | a :: l, b :: m => if a = b then charListLe l m else decide (a.toNat < b.toNat)

/-- Lexicographic string comparison by code point. -/
def strLe (s t : String) : Bool := charListLe s.data t.data

/-- Insert into a list assumed sorted for the Bool-valued comparison. -/
def orderedInsertB {α : Type} (le : α → α → Bool) (a : α) : List α → List α
  | [] => [a]
  | b :: l => if le a b then a :: b :: l else b :: orderedInsertB le a l

/-- Insertion sort for a Bool-valued comparison. -/
def insertionSortB {α : Type} (le : α → α → Bool) : List α → List α
  | [] => []
  | a :: l => orderedInsertB le a (insertionSortB le l)

/-- Result of `np.unique` on a list: the distinct values in sorted
order. -/
def npUniq {α : Type} [DecidableEq α] (le : α → α → Bool) (l : List α) : List α :=
  (insertionSortB le l).dedup

/-- Canonical session names before deduplication: names from both
directory listings, filtered by the session regex, with the archive
extension and the `_eeg` / `_spk` suffix tags stripped (Python
`str.replace` removes every occurrence). -/
def canonNames (st : FS) (td ed : String) (ext : String) : List String :=
  ((((st.listings td).map DirEntry.name) ++ ((st.listings ed).map DirEntry.name)).filter
    (fun f => sessionSearch f)).map
    (fun f => pyReplace (pyReplace (pyReplace f ext "") "_eeg" "") "_spk" "")

/-- The `Tarloader` object: configuration fields plus the deduplicated
session-name list computed at construction. -/
structure Tarloader where
  tar_directory : String
  export_directory : String
  ext : String
  eeg : Bool
  spk : Bool
  samples : Int
  channels : Int
  use_disk : Bool
  files : List String
deriving DecidableEq, Repr

/-- `Tarloader.__init__`: asserts that at least one directory is given
and that eeg export is not requested, resolves the two directories, and
crawls both for session names. -/
def Tarloader.init (st : FS) (tar_directory export_directory : Option String)
    (ext : String) (eeg spk : Bool) (samples channels : Int) (use_disk : Bool) :
    Except PyError Tarloader :=
  if !(pyTruthy tar_directory || pyTruthy export_directory) then
    Except.error (PyError.assertionError
      "One of `tar_directory` or `export_directory` must be provided.")
  else if eeg then
    Except.error (PyError.assertionError "eeg cannot be exported at the moment.")
  else
    let td := if pyTruthy tar_directory then tar_directory.getD ""
              else export_directory.getD ""
    let ed := if pyTruthy export_directory then export_directory.getD "" else td
    Except.ok { tar_directory := td, export_directory := ed, ext := ext, eeg := eeg,
                spk := spk, samples := samples, channels := channels,
                use_disk := use_disk, files := npUniq strLe (canonNames st td ed ext) }

/-- Path of the primary archive of session `name`. -/
def Tarloader.primaryPath (tl : Tarloader) (name : String) : String :=
  pathJoin tl.tar_directory (name ++ tl.ext)

/-- Path of the eeg-suffixed archive of session `name`. -/
def Tarloader.eegPath (tl : Tarloader) (name : String) : String :=
  pathJoin tl.tar_directory (name ++ "_eeg" ++ tl.ext)

/-- Path of the spike-suffixed archive of session `name`. -/
def Tarloader.spkPath (tl : Tarloader) (name : String) : String :=
  pathJoin tl.tar_directory (name ++ "_spk" ++ tl.ext)

/-- `tarfile.open(path).extractall(dest)`: fails when the archive is
absent, otherwise appends the archive's top-level entries to the
destination listing and records the extraction in the log. -/
def FS.extractArchive (st : FS) (archivePath dest : String) : Except PyError FS :=
  match st.archives archivePath with
  | none => Except.error (PyError.fileNotFoundError archivePath)
  | some entries =>
      Except.ok { st with
        listings := Function.update st.listings dest (st.listings dest ++ entries),
        log := st.log ++ [archivePath] }

/-- `Tarloader.extract`: returns early when any directory entry named
after the session is already listed in the export directory (the source
comments that this does not check whether it is a dir or a file);
otherwise extracts the primary archive, then the eeg archive when `eeg`
is set, then the spk archive when `spk` is set. -/
def Tarloader.extract (tl : Tarloader) (st : FS) (index : Int) : Except PyError FS :=
  match pyListGet tl.files index with
  | Except.error e => Except.error e
  | Except.ok name =>
    if name ∈ (st.listings tl.export_directory).map DirEntry.name then Except.ok st
    else
      match st.extractArchive (tl.primaryPath name) tl.export_directory with
      | Except.error e => Except.error e
      | Except.ok st1 =>
        match (if tl.eeg then st1.extractArchive (tl.eegPath name) tl.export_directory
               else Except.ok st1) with
        | Except.error e => Except.error e
        | Except.ok st2 =>
          if tl.spk then st2.extractArchive (tl.spkPath name) tl.export_directory
          else Except.ok st2

/-- Resolution of a non-integer index in `Tarloader.__getitem__`: the
first position whose name equals the key, or `IndexError` when absent. -/
def Tarloader.resolve (tl : Tarloader) (s : String) : Except PyError Int :=
  match firstIndexOf tl.files s with
  | some k => Except.ok (k : Int)
  | none => Except.error (PyError.indexError ("Index " ++ s ++ " not found"))

/-- An index passed to `Tarloader.__getitem__`: an integer position or a
session-name string. -/
inductive PyIndex where
  | pos (i : Int)
  | name (s : String)
deriving DecidableEq, Repr

/-- Python `str.split(sep)[2]` followed by `int(...)`, as applied to a
matched group filename; `int` is modeled on unsigned decimal tokens. -/
def groupToken (f : String) : Except PyError Nat :=
  match (pySplitDot f).get? 2 with
  | some t =>
      match parseNat t with
      | some n => Except.ok n
      | none => Except.error (PyError.valueError t)
  | none => Except.error (PyError.indexError "list index out of range")

/-- Group-number tokens of the files of a session directory that match
the per-group filename regex, in listing order. -/
def groupTokens (st : FS) (directory : String) : Except PyError (List Nat) :=
  (((st.listings directory).map DirEntry.name).filter
    (fun f => groupFileSearch f)).mapM groupToken

/-- The `Dataloader` object: configuration fields plus the distinct
group-number count computed at construction. -/
structure Dataloader where
  directory : String
  novel : Mat
  eeg : Bool
  spk : Bool
  samples : Int
  channels : Int
  use_disk : Bool
  num_files : Nat
deriving DecidableEq, Repr

/-- `Dataloader.__init__`: stores the arguments and counts the distinct
group-number tokens among the files of the session directory matching
the per-group regex. -/
def Dataloader.init (st : FS) (directory : String) (novel : Mat) (eeg spk : Bool)
    (samples channels : Int) (use_disk : Bool) : Except PyError Dataloader :=
  match groupTokens st directory with
  | Except.error e => Except.error e
  | Except.ok toks =>
      Except.ok { directory := directory, novel := novel, eeg := eeg, spk := spk,
                  samples := samples, channels := channels, use_disk := use_disk,
                  num_files := (npUniq Nat.ble toks).length }

/-- Path of the memoized table file consulted and written by
`Dataloader.__getitem__` for access key `index`: note the `index + 1`. -/
def memoName (dl : Dataloader) (index : Int) : String :=
  pathJoin dl.directory ("COMPILED_" ++ toString (index + 1) ++ ".csv")

/-- Keyword arguments of the `kkio.from_KK` call for group selector `g`. -/
def dlOpts (dl : Dataloader) (g : Int) : KKOpts :=
  { groups_to_get := g, verify_unique_clusters := false, also_get_features := true,
    also_get_waveforms := dl.spk, n_samples := dl.samples, n_channels := dl.channels,
    fs := 20000, load_memoized := false, save_memoized := false }

/-- `DataFrame.to_csv`: persist a table at a path. -/
def FS.putTable (st : FS) (p : String) (df : DataFrame) : FS :=
  { st with tables := Function.update st.tables p (some df) }

/-- `Dataloader.__getitem__`: when memoization is on and the memoized
file for `index + 1` exists, read it back; otherwise raw-parse group
`index + 1` via `kkio.from_KK` and, when memoization is on, persist the
result before returning. Returns the possibly-updated state together
with the `(novel, data)` pair the source returns. -/
def Dataloader.getitem (dl : Dataloader) (st : FS) (index : Int) :
    Except PyError (FS × Mat × DataFrame) :=
  let fname := memoName dl index
  match (if dl.use_disk then st.tables fname else none) with
  | some data => Except.ok (st, dl.novel, data)
  | none =>
    match st.raw dl.directory (dlOpts dl (index + 1)) with
    | Except.error e => Except.error e
    | Except.ok data =>
      if dl.use_disk then Except.ok (st.putTable fname data, dl.novel, data)
      else Except.ok (st, dl.novel, data)

/-- `Tarloader.__getitem__`: resolve a string key to a position, extract
the session if needed, load the session metadata, and construct the
`Dataloader` for the session's extracted directory. -/
def Tarloader.getitem (tl : Tarloader) (st : FS) (index : PyIndex) :
    Except PyError (FS × Dataloader) :=
  match (match index with
         | PyIndex.pos i => Except.ok i
         | PyIndex.name s => tl.resolve s) with
  | Except.error e => Except.error e
  | Except.ok i =>
    match tl.extract st i with
    | Except.error e => Except.error e
    | Except.ok st1 =>
      match pyListGet tl.files i with
      | Except.error e => Except.error e
      | Except.ok name =>
        let sessDir := pathJoin tl.export_directory name
        match st1.mats (pathJoin sessDir (name ++ "_sessInfo.mat")) with
        | none => Except.error (PyError.fileNotFoundError (name ++ "_sessInfo.mat"))
        | some novel =>
          match Dataloader.init st1 sessDir novel tl.eeg tl.spk tl.samples
              tl.channels tl.use_disk with
          | Except.error e => Except.error e
          | Except.ok dl => Except.ok (st1, dl)

/-- `Tarloader.__len__`. -/
def Tarloader.len (tl : Tarloader) : Nat := tl.files.length

/-- `Dataloader.__len__`. -/
def Dataloader.len (dl : Dataloader) : Nat := dl.num_files

/-- Inserting with `orderedInsertB` permutes to consing. -/
theorem orderedInsertB_perm {α : Type} (le : α → α → Bool) (a : α) (l : List α) :
    List.Perm (orderedInsertB le a l) (a :: l) := by
  induction l with
  | nil => exact List.Perm.refl _
  | cons b m ih =>
      simp only [orderedInsertB]
      split
      · exact List.Perm.refl _
      · exact (ih.cons b).trans (List.Perm.swap a b m)

/-- `insertionSortB` permutes its input. -/
theorem insertionSortB_perm {α : Type} (le : α → α → Bool) (l : List α) :
    List.Perm (insertionSortB le l) l := by
  induction l with
  | nil => exact List.Perm.refl _
  | cons a m ih =>
      exact (orderedInsertB_perm le a (insertionSortB le m)).trans (ih.cons a)

/-- Inserting into a list that is pairwise `le` preserves pairwise `le`,
for a total transitive comparison. -/
theorem orderedInsertB_pairwise {α : Type} (le : α → α → Bool)
    (htot : ∀ a b, le a b = true ∨ le b a = true)
    (htrans : ∀ a b c, le a b = true → le b c = true → le a c = true) (a : α) :
    ∀ l : List α, List.Pairwise (fun x y => le x y = true) l →
      List.Pairwise (fun x y => le x y = true) (orderedInsertB le a l)
  | [], _ => by simp [orderedInsertB]
  | b :: m, hs => by
      rw [List.pairwise_cons] at hs
      obtain ⟨hb, hm⟩ := hs
      simp only [orderedInsertB]
      split
      · rename_i hab
        rw [List.pairwise_cons]
        refine ⟨?_, List.pairwise_cons.mpr ⟨hb, hm⟩⟩
        intro y hy
        rcases List.mem_cons.mp hy with rfl | hy'
        · exact hab
        · exact htrans a b y hab (hb y hy')
      · rename_i hab
        have hba : le b a = true := by
          rcases htot a b with h | h
          · exact absurd h hab
          · exact h
        rw [List.pairwise_cons]
        refine ⟨?_, orderedInsertB_pairwise le htot htrans a m hm⟩
        intro y hy
        have hy' := (orderedInsertB_perm le a m).mem_iff.mp hy
        rcases List.mem_cons.mp hy' with rfl | hy''
        · exact hba
        · exact hb y hy''

/-- `insertionSortB` sorts, for a total transitive comparison. -/
theorem insertionSortB_pairwise {α : Type} (le : α → α → Bool)
    (htot : ∀ a b, le a b = true ∨ le b a = true)
    (htrans : ∀ a b c, le a b = true → le b c = true → le a c = true)
    (l : List α) :
    List.Pairwise (fun x y => le x y = true) (insertionSortB le l) := by
  induction l with
  | nil => exact List.Pairwise.nil
  | cons a m ih => exact orderedInsertB_pairwise le htot htrans a _ ih

/-- The length of `npUniq le l` is the number of distinct elements of
`l`. -/
theorem npUniq_length {α : Type} [DecidableEq α] (le : α → α → Bool) (l : List α) :
    (npUniq le l).length = l.toFinset.card := by
  rw [npUniq, ← List.card_toFinset,
    List.toFinset_eq_of_perm _ _ (insertionSortB_perm le l)]

/-- The list `npUniq le l` is sorted for `le`, when `le` is total and
transitive. -/
theorem npUniq_pairwise {α : Type} [DecidableEq α] (le : α → α → Bool)
    (htot : ∀ a b, le a b = true ∨ le b a = true)
    (htrans : ∀ a b c, le a b = true → le b c = true → le a c = true)
    (l : List α) :
    List.Pairwise (fun x y => le x y = true) (npUniq le l) :=
  List.Pairwise.sublist (List.dedup_sublist _)
    (insertionSortB_pairwise le htot htrans l)

/-- The lexicographic code-point comparison is total. -/
theorem charListLe_total : ∀ l m : List Char,
    charListLe l m = true ∨ charListLe m l = true
  | [], _ => Or.inl rfl
  | _ :: _, [] => Or.inr rfl
  | a :: l, b :: m => by
      by_cases hab : a = b
      · subst hab
        simp only [charListLe, if_pos rfl]
        exact charListLe_total l m
      · have hba : ¬ b = a := fun e => hab e.symm
        have hne : a.toNat ≠ b.toNat := by
          intro e
          exact hab (Char.ext (UInt32.toNat.inj e))
        simp only [charListLe, if_neg hab, if_neg hba, decide_eq_true_eq]
        rcases Nat.lt_or_ge a.toNat b.toNat with h | h
        · exact Or.inl h
        · exact Or.inr (Nat.lt_of_le_of_ne h (fun e => hne e.symm))

/-- The lexicographic code-point comparison is transitive. -/
theorem charListLe_trans : ∀ l m n : List Char, charListLe l m = true →
    charListLe m n = true → charListLe l n = true
  | [], _, _, _, _ => rfl
  | _ :: _, [], _, h1, _ => by simp [charListLe] at h1
  | _ :: _, _ :: _, [], _, h2 => by simp [charListLe] at h2
  | a :: l, b :: m, c :: n, h1, h2 => by
      by_cases hab : a = b
      · subst hab
        simp only [charListLe, if_pos rfl] at h1
        by_cases hac : a = c
        · subst hac
          simp only [charListLe, if_pos rfl] at h2 ⊢
          exact charListLe_trans l m n h1 h2
        · simp only [charListLe, if_neg hac] at h2 ⊢
          exact h2
      · by_cases hbc : b = c
        · subst hbc
          simp only [charListLe, if_neg hab] at h1 ⊢
          exact h1
        · simp only [charListLe, if_neg hab, if_neg hbc, decide_eq_true_eq] at h1 h2
          by_cases hac : a = c
          · subst hac
            exact absurd (Nat.lt_trans h1 h2) (Nat.lt_irrefl _)
          · simp only [charListLe, if_neg hac, decide_eq_true_eq]
            exact Nat.lt_trans h1 h2

/-- `strLe` is total. -/
theorem strLe_total (s t : String) : strLe s t = true ∨ strLe t s = true :=
  charListLe_total s.data t.data

/-- `strLe` is transitive. -/
theorem strLe_trans (s t u : String) : strLe s t = true → strLe t u = true →
    strLe s u = true :=
  charListLe_trans s.data t.data u.data

/-- `Nat.ble` is total. -/
theorem natBle_total (a b : Nat) : Nat.ble a b = true ∨ Nat.ble b a = true := by
  rcases Nat.le_total a b with h | h
  · exact Or.inl (Nat.ble_eq.mpr h)
  · exact Or.inr (Nat.ble_eq.mpr h)

/-- `Nat.ble` is transitive. -/
theorem natBle_trans (a b c : Nat) : Nat.ble a b = true → Nat.ble b c = true →
    Nat.ble a c = true := by
  intro h1 h2
  exact Nat.ble_eq.mpr (Nat.le_trans (Nat.ble_eq.mp h1) (Nat.ble_eq.mp h2))

/-- Accessing a Python list at a position at or past its length raises
`IndexError`. -/
theorem pyListGet_oob {α : Type} (l : List α) (i : Int) (h : (l.length : Int) ≤ i) :
    pyListGet l i = Except.error (PyError.indexError "list index out of range") := by
  have h0 : ¬ i < 0 := by omega
  have h1 : (0 : Int) ≤ i := by omega
  have h2 : l.get? i.toNat = none := by
    rw [List.get?_eq_none]
    omega
  simp only [pyListGet]
  rw [if_neg h0, if_pos h1, h2]

/-- Accessing a Python list at a valid nonnegative position returns the
element there. -/
theorem pyListGet_ok {α : Type} (l : List α) (k : Nat) (a : α) (h : l.get? k = some a) :
    pyListGet l (k : Int) = Except.ok a := by
  have h0 : ¬ (k : Int) < 0 := by omega
  have h1 : (0 : Int) ≤ (k : Int) := by omega
  simp only [pyListGet]
  rw [if_neg h0, if_pos h1, Int.toNat_natCast, h]

/-- A name that occurs nowhere in the list has no first index. -/
theorem firstIndexOf_eq_none (l : List String) (s : String) (h : s ∉ l) :
    firstIndexOf l s = none := by
  induction l with
  | nil => rfl
  | cons a rest ih =>
      have ha : ¬ a = s := by
        intro e
        exact h (e ▸ List.mem_cons_self a rest)
      have hs : s ∉ rest := fun hm => h (List.mem_cons_of_mem a hm)
      simp [firstIndexOf, ha, ih hs]

/-- The first index found for `s` holds `s`. -/
theorem firstIndexOf_get (l : List String) (s : String) (k : Nat)
    (h : firstIndexOf l s = some k) : l.get? k = some s := by
  induction l generalizing k with
  | nil => cases h
  | cons a rest ih =>
      by_cases ha : a = s
      · simp only [firstIndexOf, if_pos ha] at h
        cases h
        simp [ha]
      · simp only [firstIndexOf, if_neg ha, Option.map_eq_some'] at h
        obtain ⟨k', hk', rfl⟩ := h
        simpa using ih k' hk'

/-- Record set used as the raw-parse result of group 1 in the concrete
examples. -/
def df1 : DataFrame := ⟨[[1]]⟩

/-- Record set used as the raw-parse result of group 2 in the concrete
examples. -/
def df2 : DataFrame := ⟨[[2]]⟩

/-- Metadata value used in the concrete examples. -/
def mat0 : Mat := [("pos", 7)]

/-- Filesystem state for the group-index examples: directory `d` holds one
group file for group 1, no memoized tables exist, and the raw parser
returns `df1` for group selector 1 and `df2` for any other selector. -/
def stG : FS :=
  { listings := fun p => if p = "d" then [⟨"ab_1.clu.1", false⟩] else [],
    archives := fun _ => none,
    mats := fun _ => none,
    tables := fun _ => none,
    raw := fun _ o => if o.groups_to_get = 1 then Except.ok df1 else Except.ok df2,
    log := [] }

/-- Dataloader over directory `d` with memoization disabled and one
group. -/
def dlG : Dataloader :=
  { directory := "d", novel := mat0, eeg := false, spk := true, samples := 32,
    channels := -1, use_disk := false, num_files := 1 }

/-- Dataloader over directory `d` with memoization enabled and one
group. -/
def dlG2 : Dataloader :=
  { directory := "d", novel := mat0, eeg := false, spk := true, samples := 32,
    channels := -1, use_disk := true, num_files := 1 }

/-- Filesystem state for the memoized-path examples: the memoized table
for access key 0 (file `COMPILED_1.csv`) holds `df2`, and the raw parser
returns `df1` for every group. -/
def stG2 : FS :=
  { listings := fun _ => [],
    archives := fun _ => none,
    mats := fun _ => none,
    tables := fun p => if p = "d/COMPILED_1.csv" then some df2 else none,
    raw := fun _ _ => Except.ok df1,
    log := [] }

/-- C1: counterexample — with one group (`num_groups = 1`) and memoization
disabled, indexing the GroupIndex with group id `g = 1` invokes the raw
parser with group selector 2 and returns its record set `df2`, which
differs from the record set `df1` the raw parser yields for group 1: an
access with key `g` corresponds to group `g + 1`, not `g`. -/
theorem c1_counterexample :
    dlG.getitem stG 1 = Except.ok (stG, dlG.novel, df2) ∧
    stG.raw "d" (dlOpts dlG 1) = Except.ok df1 ∧ df2 ≠ df1 :=
  ⟨rfl, rfl, by decide⟩

/-- C1: amended — GroupIndex integer access with key `i` targets group
`i + 1`: with memoization off a successful access returns the raw parse
with group selector `i + 1`, and with memoization on it returns the table
memoized under `COMPILED_(i+1).csv`; the access key is 0-based, so keys
`0 .. num_groups - 1` cover groups `1 .. num_groups`. -/
theorem c1_amended_access (dl : Dataloader) (st : FS) (i : Int) (dfr dfm : DataFrame)
    (hraw : st.raw dl.directory (dlOpts dl (i + 1)) = Except.ok dfr)
    (hmemo : st.tables (memoName dl i) = some dfm) :
    (dl.use_disk = false → dl.getitem st i = Except.ok (st, dl.novel, dfr)) ∧
    (dl.use_disk = true → dl.getitem st i = Except.ok (st, dl.novel, dfm)) := by
  constructor
  · intro h
    simp [Dataloader.getitem, h, hraw]
  · intro h
    simp [Dataloader.getitem, h, hmemo]

/-- C1 witness: at key 0 with memoization on, the hypotheses of the
amended theorem hold concretely and the table memoized under
`COMPILED_1.csv` is returned. -/
theorem c1_amended_access_witness :
    stG2.raw dlG2.directory (dlOpts dlG2 (0 + 1)) = Except.ok df1 ∧
    stG2.tables (memoName dlG2 0) = some df2 ∧
    dlG2.getitem stG2 0 = Except.ok (stG2, dlG2.novel, df2) :=
  ⟨rfl, rfl, (c1_amended_access dlG2 stG2 0 df1 df2 rfl rfl).2 rfl⟩

/-- C2: round trip — with memoization enabled and no memoized table
present, a group access raw-parses group `i + 1`, persists the result as
`COMPILED_(i+1).csv`, and returns it; re-accessing the same key on the
updated state takes the memoized path and returns the identical record
set; and a direct raw parse with memoization disabled returns that same
record set on the same input. -/
theorem c2_roundtrip (dl : Dataloader) (st : FS) (i : Int) (df : DataFrame)
    (hd : dl.use_disk = true)
    (habsent : st.tables (memoName dl i) = none)
    (hraw : st.raw dl.directory (dlOpts dl (i + 1)) = Except.ok df) :
    dl.getitem st i = Except.ok (st.putTable (memoName dl i) df, dl.novel, df) ∧
    dl.getitem (st.putTable (memoName dl i) df) i
      = Except.ok (st.putTable (memoName dl i) df, dl.novel, df) ∧
    ({ dl with use_disk := false } : Dataloader).getitem st i
      = Except.ok (st, dl.novel, df) := by
  refine ⟨?_, ?_, ?_⟩
  · simp [Dataloader.getitem, hd, habsent, hraw]
  · have hupd : (st.putTable (memoName dl i) df).tables (memoName dl i) = some df := by
      simp [FS.putTable]
    simp [Dataloader.getitem, hd, hupd]
  · have habsent' := habsent
    have hraw' := hraw
    simp only [memoName, dlOpts] at habsent' hraw'
    simp [Dataloader.getitem, memoName, dlOpts, habsent', hraw']

/-- C2 witness: concrete round trip for key 0 over directory `d`. -/
theorem c2_roundtrip_witness :
    dlG2.use_disk = true ∧
    stG.tables (memoName dlG2 0) = none ∧
    stG.raw dlG2.directory (dlOpts dlG2 (0 + 1)) = Except.ok df1 ∧
    dlG2.getitem stG 0 = Except.ok (stG.putTable (memoName dlG2 0) df1, dlG2.novel, df1) :=
  ⟨rfl, rfl, rfl, (c2_roundtrip dlG2 stG 0 df1 rfl rfl rfl).1⟩

/-- Dataloader over directory `d` with memoization enabled whose waveform
flag, sample count and channel count differ from those of `dlG2`. -/
def dlG3 : Dataloader :=
  { directory := "d", novel := mat0, eeg := false, spk := false, samples := 64,
    channels := 4, use_disk := true, num_files := 1 }

/-- C9: the memoized fast path is keyed only by group position — the
memoized filename depends only on the directory and the access index, and
with memoization enabled two Dataloaders over the same directory that
differ arbitrarily in the waveform flag, sample count and channel count
both return the same persisted table unchanged. -/
theorem c9_memo_key (dl dl' : Dataloader) (st : FS) (i : Int) (df : DataFrame)
    (hdir : dl'.directory = dl.directory)
    (hd : dl.use_disk = true) (hd' : dl'.use_disk = true)
    (ht : st.tables (memoName dl i) = some df) :
    memoName dl' i = memoName dl i ∧
    dl.getitem st i = Except.ok (st, dl.novel, df) ∧
    dl'.getitem st i = Except.ok (st, dl'.novel, df) := by
  have hm : memoName dl' i = memoName dl i := by
    simp [memoName, hdir]
  refine ⟨hm, ?_, ?_⟩
  · simp [Dataloader.getitem, hd, ht]
  · simp [Dataloader.getitem, hd', hm, ht]

/-- C9 witness: a table persisted under `COMPILED_1.csv` is returned
unchanged by Dataloaders with two different option configurations. -/
theorem c9_memo_key_witness :
    dlG3.directory = dlG2.directory ∧
    stG2.tables (memoName dlG2 0) = some df2 ∧
    dlG2.getitem stG2 0 = Except.ok (stG2, dlG2.novel, df2) ∧
    dlG3.getitem stG2 0 = Except.ok (stG2, dlG3.novel, df2) :=
  ⟨rfl, rfl, (c9_memo_key dlG2 dlG3 stG2 0 df2 rfl rfl rfl rfl).2.1,
    (c9_memo_key dlG2 dlG3 stG2 0 df2 rfl rfl rfl rfl).2.2⟩

/-- Tarloader over archive directory `t` and export directory `e` used in
the session-level examples, with two known sessions. -/
def tlW : Tarloader :=
  { tar_directory := "t", export_directory := "e", ext := ".tar.gz", eeg := false,
    spk := true, samples := 32, channels := -1, use_disk := true,
    files := ["ab_1", "ab_2"] }

/-- C5: for a session name present in the canonical name list, accessing
the SessionIndex by the name string and by that name's integer position
in the list return identical results. -/
theorem c5_name_pos_equal (tl : Tarloader) (st : FS) (s : String) (k : Nat)
    (h : firstIndexOf tl.files s = some k) :
    tl.getitem st (PyIndex.name s) = tl.getitem st (PyIndex.pos (k : Int)) := by
  simp [Tarloader.getitem, Tarloader.resolve, h]

/-- C5 witness: accessing `tlW` by the name `ab_2` and by its position 1
give the same result. -/
theorem c5_name_pos_equal_witness :
    firstIndexOf tlW.files "ab_2" = some 1 ∧
    tlW.getitem stG2 (PyIndex.name "ab_2") = tlW.getitem stG2 (PyIndex.pos 1) :=
  ⟨rfl, c5_name_pos_equal tlW stG2 "ab_2" 1 rfl⟩

/-- C8: constructing the SessionIndex with neither directory supplied
fails with the configuration assertion; with a directory supplied but
auxiliary-waveform (eeg) inclusion requested it fails with the
unsupported-feature assertion, constructing nothing in either case; with
at least one directory and eeg not requested, construction succeeds. -/
theorem c8_construction (st : FS) (td ed : Option String) (ext : String)
    (eeg spk : Bool) (samples channels : Int) (use_disk : Bool) :
    (pyTruthy td = false → pyTruthy ed = false →
      Tarloader.init st td ed ext eeg spk samples channels use_disk =
        Except.error (PyError.assertionError
          "One of `tar_directory` or `export_directory` must be provided.")) ∧
    ((pyTruthy td || pyTruthy ed) = true → eeg = true →
      Tarloader.init st td ed ext eeg spk samples channels use_disk =
        Except.error (PyError.assertionError "eeg cannot be exported at the moment.")) ∧
    ((pyTruthy td || pyTruthy ed) = true → eeg = false →
      ∃ tl, Tarloader.init st td ed ext eeg spk samples channels use_disk =
        Except.ok tl) := by
  refine ⟨?_, ?_, ?_⟩
  · intro h1 h2
    simp [Tarloader.init, h1, h2]
  · intro h1 h2
    simp [Tarloader.init, h1, h2]
  · intro h1 h2
    refine ⟨{ tar_directory := if pyTruthy td then td.getD "" else ed.getD "",
              export_directory := if pyTruthy ed then ed.getD ""
                else if pyTruthy td then td.getD "" else ed.getD "",
              ext := ext, eeg := false, spk := spk, samples := samples,
              channels := channels, use_disk := use_disk,
              files := npUniq strLe (canonNames st
                (if pyTruthy td then td.getD "" else ed.getD "")
                (if pyTruthy ed then ed.getD ""
                 else if pyTruthy td then td.getD "" else ed.getD "") ext) }, ?_⟩
    simp [Tarloader.init, h1, h2]

/-- C8 witness: the three construction outcomes at concrete arguments. -/
theorem c8_construction_witness :
    (Tarloader.init stG2 none none ".tar.gz" false true 32 (-1) true =
      Except.error (PyError.assertionError
        "One of `tar_directory` or `export_directory` must be provided.")) ∧
    (Tarloader.init stG2 (some "t") none ".tar.gz" true true 32 (-1) true =
      Except.error (PyError.assertionError "eeg cannot be exported at the moment.")) ∧
    (∃ tl, Tarloader.init stG2 (some "t") (some "e") ".tar.gz" false true 32 (-1) true =
      Except.ok tl) :=
  ⟨(c8_construction stG2 none none ".tar.gz" false true 32 (-1) true).1 rfl rfl,
   (c8_construction stG2 (some "t") none ".tar.gz" true true 32 (-1) true).2.1 rfl rfl,
   (c8_construction stG2 (some "t") (some "e") ".tar.gz" false true 32 (-1) true).2.2
     rfl rfl⟩

/-- C4: counterexample — the GroupIndex `dlG` has length 1, yet access at
key 1 returns a parsed record set instead of raising an index error (no
range check is performed); and SessionIndex access with the unknown name
`zzz` raises an `IndexError`, not a KeyError-equivalent
session-not-found error. -/
theorem c4_counterexample :
    dlG.num_files = 1 ∧
    dlG.getitem stG 1 = Except.ok (stG, dlG.novel, df2) ∧
    tlW.getitem stG2 (PyIndex.name "zzz") =
      Except.error (PyError.indexError "Index zzz not found") :=
  ⟨rfl, rfl, rfl⟩

/-- C4: amended — SessionIndex integer access at or past the length
raises an `IndexError`, and access with an unknown session-name string
raises an `IndexError` whose message names the key (the same index-error
kind as out-of-range access, not a KeyError-equivalent); GroupIndex
integer access performs no range check: its result does not depend on the
group count, so an access at or beyond the length proceeds to the
memoized-table lookup or the raw parse of group `index + 1` instead of
raising. -/
theorem c4_amended_errors (tl : Tarloader) (dl : Dataloader) (st : FS)
    (i : Int) (s : String) :
    ((tl.files.length : Int) ≤ i →
      tl.getitem st (PyIndex.pos i) =
        Except.error (PyError.indexError "list index out of range")) ∧
    (s ∉ tl.files →
      tl.getitem st (PyIndex.name s) =
        Except.error (PyError.indexError ("Index " ++ s ++ " not found"))) ∧
    (∀ n : Nat, ({ dl with num_files := n } : Dataloader).getitem st i =
      dl.getitem st i) := by
  refine ⟨?_, ?_, ?_⟩
  · intro h
    simp [Tarloader.getitem, Tarloader.extract, pyListGet_oob tl.files i h]
  · intro h
    simp [Tarloader.getitem, Tarloader.resolve, firstIndexOf_eq_none tl.files s h]
  · intro n
    rfl

/-- C4 witness: the amended statement at concrete inputs — out-of-range
position 5, unknown name `zzz`, and a group count changed to 9 without
changing the access result. -/
theorem c4_amended_errors_witness :
    ((tlW.files.length : Int) ≤ 5 ∧
      tlW.getitem stG2 (PyIndex.pos 5) =
        Except.error (PyError.indexError "list index out of range")) ∧
    ("zzz" ∉ tlW.files ∧
      tlW.getitem stG2 (PyIndex.name "zzz") =
        Except.error (PyError.indexError ("Index " ++ "zzz" ++ " not found"))) ∧
    ({ dlG2 with num_files := 9 } : Dataloader).getitem stG2 0 =
      dlG2.getitem stG2 0 :=
  ⟨⟨by decide, (c4_amended_errors tlW dlG2 stG2 5 "zzz").1 (by decide)⟩,
   ⟨by decide, (c4_amended_errors tlW dlG2 stG2 5 "zzz").2.1 (by decide)⟩,
   (c4_amended_errors tlW dlG2 stG2 0 "zzz").2.2 9⟩

/-- C6: a successfully constructed SessionIndex has exactly one entry per
distinct canonical session name — the names obtained by listing both
directories, filtering by the session regex and stripping the archive
extension and the eeg/spk suffix tags — and its name list is sorted, so
enumeration order is deterministic. -/
theorem c6_len_distinct (st : FS) (td ed : Option String) (ext : String)
    (eeg spk : Bool) (samples channels : Int) (use_disk : Bool) (tl : Tarloader)
    (h : Tarloader.init st td ed ext eeg spk samples channels use_disk =
      Except.ok tl) :
    tl.len = (canonNames st tl.tar_directory tl.export_directory ext).toFinset.card ∧
    List.Pairwise (fun a b => strLe a b = true) tl.files := by
  simp only [Tarloader.init] at h
  split at h
  · exact absurd h (by simp)
  · split at h
    · exact absurd h (by simp)
    · injection h with h
      subst h
      exact ⟨npUniq_length _ _, npUniq_pairwise strLe strLe_total strLe_trans _⟩

/-- Filesystem state for the construction examples: the archive directory
`t` lists `ab_1.tar.gz` and `ab_1_spk.tar.gz`, and the export directory
`e` lists an extracted `ab_2` session directory. -/
def stT : FS :=
  { listings := fun p =>
      if p = "t" then [⟨"ab_1.tar.gz", false⟩, ⟨"ab_1_spk.tar.gz", false⟩]
      else if p = "e" then [⟨"ab_2", true⟩]
      else [],
    archives := fun _ => none,
    mats := fun _ => none,
    tables := fun _ => none,
    raw := fun _ _ => Except.ok df1,
    log := [] }

/-- The Tarloader produced by construction over `stT`: both archive names
collapse to the canonical name `ab_1` and the extracted directory
contributes `ab_2`. -/
def tlT : Tarloader :=
  { tar_directory := "t", export_directory := "e", ext := ".tar.gz", eeg := false,
    spk := true, samples := 32, channels := -1, use_disk := true,
    files := ["ab_1", "ab_2"] }

/-- C6 witness: concrete construction over `stT` yields length 2 — the
number of distinct canonical names — with a sorted name list. -/
theorem c6_len_distinct_witness :
    Tarloader.init stT (some "t") (some "e") ".tar.gz" false true 32 (-1) true =
      Except.ok tlT ∧
    tlT.len = (canonNames stT tlT.tar_directory tlT.export_directory ".tar.gz").toFinset.card ∧
    List.Pairwise (fun a b => strLe a b = true) tlT.files :=
  ⟨rfl,
   (c6_len_distinct stT (some "t") (some "e") ".tar.gz" false true 32 (-1) true tlT rfl).1,
   (c6_len_distinct stT (some "t") (some "e") ".tar.gz" false true 32 (-1) true tlT rfl).2⟩

/-- C7: amended — the length of a GroupIndex equals the count of distinct
group-number tokens among the files matching the per-group convention;
the group ids targeted by sequence access are `1 .. count` (key `i` maps
to group `i + 1`), derived from the distinct-token count and not from the
maximum observed group number, with which it need not agree. -/
theorem c7_amended_len (st : FS) (directory : String) (novel : Mat) (eeg spk : Bool)
    (samples channels : Int) (use_disk : Bool) (toks : List Nat) (dl : Dataloader)
    (htoks : groupTokens st directory = Except.ok toks)
    (h : Dataloader.init st directory novel eeg spk samples channels use_disk =
      Except.ok dl) :
    dl.len = toks.toFinset.card := by
  simp only [Dataloader.init, htoks] at h
  injection h with h
  subst h
  exact npUniq_length Nat.ble toks

/-- C7 witness: a directory with a single group file for group 1 yields a
GroupIndex of length 1, the number of distinct tokens. -/
theorem c7_amended_len_witness :
    groupTokens stG "d" = Except.ok [1] ∧
    Dataloader.init stG "d" mat0 false true 32 (-1) false = Except.ok dlG ∧
    dlG.len = ([1] : List Nat).toFinset.card :=
  ⟨rfl, rfl, c7_amended_len stG "d" mat0 false true 32 (-1) false [1] dlG rfl rfl⟩

/-- Filesystem state whose session directory `d` holds group files for
the non-contiguous group numbers 1 and 3. -/
def stG13 : FS :=
  { listings := fun p =>
      if p = "d" then [⟨"ab_1.clu.1", false⟩, ⟨"ab_1.clu.3", false⟩] else [],
    archives := fun _ => none,
    mats := fun _ => none,
    tables := fun _ => none,
    raw := fun _ _ => Except.ok df1,
    log := [] }

/-- C7: counterexample — with group files for groups 1 and 3 only, the
distinct-token count (and hence the GroupIndex length) is 2 while the
maximum observed group number is 3: the group ids are not the contiguous
range `1 .. max` derived from the maximum, and count and maximum
disagree. -/
theorem c7_counterexample :
    groupTokens stG13 "d" = Except.ok [1, 3] ∧
    (Dataloader.init stG13 "d" mat0 false true 32 (-1) false).map Dataloader.len =
      Except.ok 2 ∧
    ([1, 3] : List Nat).foldr max 0 = 3 ∧ (2 : Nat) ≠ 3 :=
  ⟨rfl, rfl, rfl, by decide⟩

/-- A successful archive extraction comes from a present archive, appends
its entries to the destination listing, and logs the archive path. -/
theorem extractArchive_ok {st st' : FS} {p d : String}
    (h : st.extractArchive p d = Except.ok st') :
    ∃ entries, st.archives p = some entries ∧
      st' = { st with
        listings := Function.update st.listings d (st.listings d ++ entries),
        log := st.log ++ [p] } := by
  unfold FS.extractArchive at h
  cases harch : st.archives p with
  | none => rw [harch] at h; cases h
  | some entries =>
      rw [harch] at h
      injection h with h
      exact ⟨entries, rfl, h.symm⟩

/-- Archive extraction preserves the names already listed in the
destination directory. -/
theorem extractArchive_mem {st st' : FS} {p d x : String}
    (h : st.extractArchive p d = Except.ok st')
    (hx : x ∈ (st.listings d).map DirEntry.name) :
    x ∈ (st'.listings d).map DirEntry.name := by
  obtain ⟨entries, _, rfl⟩ := extractArchive_ok h
  simp only [Function.update_same, List.map_append]
  exact List.mem_append.mpr (Or.inl hx)

/-- Archive extraction lists the names of the extracted entries in the
destination directory. -/
theorem extractArchive_mem_new {st st' : FS} {p d x : String} {entries : List DirEntry}
    (h : st.extractArchive p d = Except.ok st')
    (harch : st.archives p = some entries)
    (hx : x ∈ entries.map DirEntry.name) :
    x ∈ (st'.listings d).map DirEntry.name := by
  obtain ⟨entries', harch', rfl⟩ := extractArchive_ok h
  rw [harch] at harch'
  injection harch' with harch'
  subst harch'
  simp only [Function.update_same, List.map_append]
  exact List.mem_append.mpr (Or.inr hx)

/-- Archive extraction appends exactly the archive path to the log. -/
theorem extractArchive_log {st st' : FS} {p d : String}
    (h : st.extractArchive p d = Except.ok st') :
    st'.log = st.log ++ [p] := by
  obtain ⟨entries, _, rfl⟩ := extractArchive_ok h
  rfl

/-- After a successful extraction step for a session whose primary
archive unpacks a top-level entry named after the session, the session
name is listed in the export directory. -/
theorem extract_mem_after (tl : Tarloader) (st st1 : FS) (i : Int) (name : String)
    (hname : pyListGet tl.files i = Except.ok name)
    (hlayout : ∀ entries, st.archives (tl.primaryPath name) = some entries →
      name ∈ entries.map DirEntry.name)
    (hex : tl.extract st i = Except.ok st1) :
    name ∈ (st1.listings tl.export_directory).map DirEntry.name := by
  simp only [Tarloader.extract, hname] at hex
  by_cases hp : name ∈ (st.listings tl.export_directory).map DirEntry.name
  · rw [if_pos hp] at hex
    injection hex with hex
    rw [← hex]
    exact hp
  · rw [if_neg hp] at hex
    cases h1 : st.extractArchive (tl.primaryPath name) tl.export_directory with
    | error e => rw [h1] at hex; cases hex
    | ok sta =>
        rw [h1] at hex
        obtain ⟨entries, harch, _⟩ := extractArchive_ok h1
        have hmem1 : name ∈ (sta.listings tl.export_directory).map DirEntry.name :=
          extractArchive_mem_new h1 harch (hlayout entries harch)
        cases heeg : tl.eeg with
        | false =>
            simp only [heeg] at hex
            simp only [Bool.false_eq_true, if_false] at hex
            cases hspk : tl.spk with
            | false =>
                simp only [hspk, Bool.false_eq_true, if_false] at hex
                injection hex with hex
                rw [← hex]
                exact hmem1
            | true =>
                simp only [hspk, if_true] at hex
                exact extractArchive_mem hex hmem1
        | true =>
            simp only [heeg, if_true] at hex
            cases h2 : sta.extractArchive (tl.eegPath name) tl.export_directory with
            | error e => rw [h2] at hex; cases hex
            | ok stb =>
                rw [h2] at hex
                have hmem2 : name ∈ (stb.listings tl.export_directory).map DirEntry.name :=
                  extractArchive_mem h2 hmem1
                cases hspk : tl.spk with
                | false =>
                    simp only [hspk, Bool.false_eq_true, if_false] at hex
                    injection hex with hex
                    rw [← hex]
                    exact hmem2
                | true =>
                    simp only [hspk, if_true] at hex
                    exact extractArchive_mem hex hmem2

/-- C10: the extraction step is skipped exactly when some directory entry
whose name equals the session name — regardless of whether the entry is a
directory or a file, or whether the extraction it witnesses was complete —
is present in the export-directory listing: when such an entry is present
the state is returned unchanged, so neither the primary nor the
spike-suffixed archive is opened; when none is present, any successful
extraction opens and logs the primary archive, then the eeg archive if
requested, then the spike archive if enabled. -/
theorem c10_skip_iff (tl : Tarloader) (st : FS) (i : Int) (name : String)
    (hname : pyListGet tl.files i = Except.ok name) :
    ((∃ e ∈ st.listings tl.export_directory, e.name = name) →
      tl.extract st i = Except.ok st) ∧
    (¬ (∃ e ∈ st.listings tl.export_directory, e.name = name) →
      ∀ st', tl.extract st i = Except.ok st' →
        st'.log = st.log ++ [tl.primaryPath name] ++
          (if tl.eeg then [tl.eegPath name] else []) ++
          (if tl.spk then [tl.spkPath name] else [])) := by
  have hmemiff : (name ∈ (st.listings tl.export_directory).map DirEntry.name) ↔
      (∃ e ∈ st.listings tl.export_directory, e.name = name) := List.mem_map
  constructor
  · intro hp
    simp only [Tarloader.extract, hname]
    rw [if_pos (hmemiff.mpr hp)]
  · intro hp st' hex
    simp only [Tarloader.extract, hname] at hex
    rw [if_neg (fun hm => hp (hmemiff.mp hm))] at hex
    cases h1 : st.extractArchive (tl.primaryPath name) tl.export_directory with
    | error e => rw [h1] at hex; cases hex
    | ok sta =>
        rw [h1] at hex
        have hlog1 := extractArchive_log h1
        cases heeg : tl.eeg with
        | false =>
            simp only [heeg, Bool.false_eq_true, if_false] at hex ⊢
            cases hspk : tl.spk with
            | false =>
                simp only [hspk, Bool.false_eq_true, if_false] at hex ⊢
                injection hex with hex
                subst hex
                simp [hlog1]
            | true =>
                simp only [hspk, if_true] at hex ⊢
                have hlog2 := extractArchive_log hex
                simp [hlog2, hlog1]
        | true =>
            simp only [heeg, if_true] at hex ⊢
            cases h2 : sta.extractArchive (tl.eegPath name) tl.export_directory with
            | error e => rw [h2] at hex; cases hex
            | ok stb =>
                rw [h2] at hex
                have hlog2 := extractArchive_log h2
                cases hspk : tl.spk with
                | false =>
                    simp only [hspk, Bool.false_eq_true, if_false] at hex ⊢
                    injection hex with hex
                    subst hex
                    simp [hlog2, hlog1]
                | true =>
                    simp only [hspk, if_true] at hex ⊢
                    have hlog3 := extractArchive_log hex
                    simp [hlog3, hlog2, hlog1]

/-- Filesystem state for the idempotence and skip examples: session
`ab_1` is already extracted in export directory `e`, its session
directory holds no group files, and its metadata file is present. -/
def stE : FS :=
  { listings := fun p => if p = "e" then [⟨"ab_1", true⟩] else [],
    archives := fun _ => none,
    mats := fun p => if p = "e/ab_1/ab_1_sessInfo.mat" then some mat0 else none,
    tables := fun _ => none,
    raw := fun _ _ => Except.ok df1,
    log := [] }

/-- C10 witness: with an entry named `ab_1` listed in the export
directory, the extraction step for session `ab_1` returns the state
unchanged. -/
theorem c10_skip_iff_witness :
    pyListGet tlW.files 0 = Except.ok "ab_1" ∧
    (∃ e ∈ stE.listings tlW.export_directory, e.name = "ab_1") ∧
    tlW.extract stE 0 = Except.ok stE :=
  ⟨rfl, by decide,
   (c10_skip_iff tlW stE 0 "ab_1" rfl).1 (by decide)⟩

/-- C3: session extraction is idempotent — for a session whose primary
archive unpacks a top-level entry named after the session (the layout the
repository documents), after one successful session access the session
name is listed in the export directory, so the extraction step of a
second access of the same session is a no-op (the state is returned
unchanged and no archive is opened) and the second access returns exactly
the same state and loader: extraction is performed at most once across
the two accesses, and an already-extracted session is never
re-extracted. -/
theorem c3_idempotent (tl : Tarloader) (st st1 : FS) (i : Int) (dl : Dataloader)
    (name : String)
    (hname : pyListGet tl.files i = Except.ok name)
    (hlayout : ∀ entries, st.archives (tl.primaryPath name) = some entries →
      name ∈ entries.map DirEntry.name)
    (h1 : tl.getitem st (PyIndex.pos i) = Except.ok (st1, dl)) :
    tl.extract st1 i = Except.ok st1 ∧
    tl.getitem st1 (PyIndex.pos i) = Except.ok (st1, dl) := by
  simp only [Tarloader.getitem] at h1
  cases hex : tl.extract st i with
  | error e => rw [hex] at h1; cases h1
  | ok sta =>
      rw [hex, hname] at h1
      dsimp only at h1
      cases hmat : sta.mats (pathJoin (pathJoin tl.export_directory name)
          (name ++ "_sessInfo.mat")) with
      | none => rw [hmat] at h1; cases h1
      | some novel =>
          rw [hmat] at h1
          dsimp only at h1
          cases hinit : Dataloader.init sta (pathJoin tl.export_directory name) novel
              tl.eeg tl.spk tl.samples tl.channels tl.use_disk with
          | error e => rw [hinit] at h1; cases h1
          | ok dl' =>
              rw [hinit] at h1
              injection h1 with h1
              have hst : sta = st1 := congrArg Prod.fst h1
              have hdl : dl' = dl := congrArg Prod.snd h1
              subst hst
              subst hdl
              have hmem := extract_mem_after tl st sta i name hname hlayout hex
              have hext1 : tl.extract sta i = Except.ok sta := by
                simp only [Tarloader.extract, hname]
                rw [if_pos hmem]
              refine ⟨hext1, ?_⟩
              simp only [Tarloader.getitem, hext1, hname, hmat, hinit]

/-- Dataloader produced by the session access of the idempotence
witness. -/
def dlE : Dataloader :=
  { directory := "e/ab_1", novel := mat0, eeg := false, spk := true, samples := 32,
    channels := -1, use_disk := true, num_files := 0 }

/-- C3 witness: a session access of `ab_1` over `stE` succeeds, and a
repeated access performs no extraction and returns the same result. -/
theorem c3_idempotent_witness :
    pyListGet tlW.files 0 = Except.ok "ab_1" ∧
    tlW.getitem stE (PyIndex.pos 0) = Except.ok (stE, dlE) ∧
    tlW.extract stE 0 = Except.ok stE ∧
    tlW.getitem stE (PyIndex.pos 0) = Except.ok (stE, dlE) :=
  ⟨rfl, rfl,
   (c3_idempotent tlW stE stE 0 dlE "ab_1" rfl
     (fun _ h => Option.noConfusion h) rfl).1,
   (c3_idempotent tlW stE stE 0 dlE "ab_1" rfl
     (fun _ h => Option.noConfusion h) rfl).2⟩

end Hc11
